import Mathlib

/-!
Verification of the ore-and-ice arbitrage notebook
(`Example_11_Ore_and_Ice_Arbitrage_with_Limit_Orders.ipynb`).

The Python source is shallowly embedded here:
* prices, volumes and money are modelled as `ℚ` (the notebook uses Python
  floats/ints; order volumes become fractional in the limit-order branch,
  where an integer volume is capped by the float `dailyVolume * volumeLimit`);
* the in-place mutation of `order['volume']` is modelled by explicit state
  passing: each matcher returns the fill list together with the updated
  order list;
* `TradingUtil.check_range`, an external collaborator that may raise, is a
  parameter of type `CheckRange` returning `Except Unit Bool`; the source's
  `try/except: pass` around it is embedded by treating an `error` result
  exactly like an unreachable order;
* Python exceptions at the public interface of `attempt_opportunity`
  (`KeyError` on the type map, `IndexError` on the market-summary lookup)
  are embedded as `Except AttemptError`;
* the unbounded `while True` round loop is run on explicit fuel; running out
  of fuel stops the loop exactly like the source's `break`.
-/

/-- One row of an order-book snapshot, with the columns used by the source:
`type_id, location_id, buy, price, volume, min_volume, order_range`. -/
structure Order where
  type_id : Nat
  location_id : Nat
  buy : Bool
  price : ℚ
  volume : ℚ
  min_volume : ℚ
  order_range : Nat
deriving DecidableEq

/-- A recorded fill `dict(price=..., volume=..., market=...)`. -/
structure Fill where
  price : ℚ
  volume : ℚ
  market : Bool
deriving DecidableEq

/-- The record returned by `spread_return`. -/
structure SpreadData where
  spread_return : ℚ
  best_bid : Option ℚ
  best_ask : Option ℚ
deriving DecidableEq

/-- One row of the market summary DataFrame: daily volume per type. -/
structure SummaryRow where
  type_id : Nat
  volume : ℚ
deriving DecidableEq

/-- One entry of a source type's `material_map`. -/
structure MaterialInfo where
  materialTypeID : Nat
  quantity : Nat
deriving DecidableEq

/-- One entry of the source-type map (`typeID`, `typeName`, `portionSize`,
`material_map`); type names are modelled as numeric identifiers. -/
structure SourceTypeInfo where
  typeID : Nat
  typeName : Nat
  portionSize : Nat
  material_map : List MaterialInfo
deriving DecidableEq

/-- The external range checker `TradingUtil.check_range(region, location,
order_location, order_range, config)`: it may return a verdict or raise. -/
abbrev CheckRange : Type := Nat → Nat → Nat → Nat → Except Unit Bool

/-- Sum of the `volume` fields of a fill list. -/
def sumVol (l : List Fill) : ℚ := (l.map (fun f => f.volume)).sum

/-- `np.sum([x['price'] * x['volume'] for x in l])`. -/
def sumCost (l : List Fill) : ℚ := (l.map (fun f => f.price * f.volume)).sum

/-- Sum of the `volume` fields of an order list. -/
def totalVolume (l : List Order) : ℚ := (l.map (fun o => o.volume)).sum

/-- Python `int()` applied to a rational: truncation toward zero. -/
def pyInt (x : ℚ) : ℤ := if 0 ≤ x then ⌊x⌋ else ⌈x⌉

/-- Loop of `attempt_buy_type_list`: walk the sell orders, consuming volume
in place (the updated order list is returned alongside the fills).  `acc` is
the Python local `potential`.  On each order, if the remaining volume covers
`min_volume` and the order still has volume, fill `min(remaining, volume)`
and decrement both; after each iteration, if the remaining volume is zero
the accumulated fills are returned.  Falling off the end of the list
returns the empty fill list (discarding `acc`, as the source does). -/
def attemptBuyGo : ℚ → List Fill → List Order → List Fill × List Order
  | _, _, [] => ([], [])
  | v, acc, o :: rest =>
    if o.min_volume ≤ v ∧ 0 < o.volume then
      let amount := min v o.volume
      let o' : Order := { o with volume := o.volume - amount }
      let acc' := acc ++ [⟨o.price, amount, true⟩]
      if v - amount = 0 then (acc', o' :: rest)
      else
        let r := attemptBuyGo (v - amount) acc' rest
        (r.1, o' :: r.2)
    else
      if v = 0 then (acc, o :: rest)
      else
        let r := attemptBuyGo v acc rest
        (r.1, o :: r.2)

/-- `attempt_buy_type_list(buy_volume, sell_order_list)`.  Returns the fills
together with the caller's (mutated) order list. -/
def attempt_buy_type_list (buy_volume : ℚ) (sell_order_list : List Order) :
    List Fill × List Order :=
  attemptBuyGo buy_volume [] sell_order_list

/-- Loop of `attempt_sell_type_list`: like `attemptBuyGo`, but each candidate
buy order must additionally pass the range check; a range check that raises
(`Except.error`) is swallowed and the order is skipped, exactly like one
whose verdict is `false` (in both cases the source still performs the
`if sell_volume == 0: return potential` test at the end of the iteration). -/
def attemptSellGo (R : CheckRange) (regionId stationId : Nat) :
    ℚ → List Fill → List Order → List Fill × List Order
  | _, _, [] => ([], [])
  | v, acc, o :: rest =>
    let rangeOk : Bool :=
      match R regionId stationId o.location_id o.order_range with
      | Except.ok b => b
      | Except.error _ => false
    if o.min_volume ≤ v ∧ 0 < o.volume ∧ rangeOk = true then
      let amount := min v o.volume
      let o' : Order := { o with volume := o.volume - amount }
      let acc' := acc ++ [⟨o.price, amount, true⟩]
      if v - amount = 0 then (acc', o' :: rest)
      else
        let r := attemptSellGo R regionId stationId (v - amount) acc' rest
        (r.1, o' :: r.2)
    else
      if v = 0 then (acc, o :: rest)
      else
        let r := attemptSellGo R regionId stationId v acc rest
        (r.1, o :: r.2)

/-- `attempt_sell_type_list(sell_region_id, sell_location_id, sell_volume,
buy_order_list)`, with the range checker as an explicit parameter. -/
def attempt_sell_type_list (R : CheckRange) (sell_region_id sell_location_id : Nat)
    (sell_volume : ℚ) (buy_order_list : List Order) : List Fill × List Order :=
  attemptSellGo R sell_region_id sell_location_id sell_volume [] buy_order_list

/-- `extract_sell_orders(snapshot, type_id, station_id)`: filter to the type,
then to the station, then to the sell side.  The source keeps the DataFrame
row order (sell orders are assumed to arrive sorted by ascending price). -/
def extract_sell_orders (snapshot : List Order) (type_id station_id : Nat) :
    List Order :=
  ((snapshot.filter (fun o => o.type_id = type_id)).filter
      (fun o => o.location_id = station_id)).filter (fun o => o.buy = false)

/-- `extract_buy_orders(snapshot, type_id)`: filter to the type, then to the
buy side (buy orders are assumed to arrive sorted by descending price). -/
def extract_buy_orders (snapshot : List Order) (type_id : Nat) : List Order :=
  (snapshot.filter (fun o => o.type_id = type_id)).filter (fun o => o.buy = true)

/-- Accumulate `order_map[price] += volume`, preserving first-seen price
order like a Python dict. -/
def addFillVolume (p v : ℚ) : List (ℚ × ℚ) → List (ℚ × ℚ)
  | [] => [(p, v)]
  | (q, w) :: rest =>
    if q = p then (q, w + v) :: rest else (q, w) :: addFillVolume p v rest

/-- Insert a fill into a price-sorted list (ascending when `asc`). -/
def insertFill (asc : Bool) (x : Fill) : List Fill → List Fill
  | [] => [x]
  | y :: ys =>
    if (if asc then x.price ≤ y.price else y.price ≤ x.price) then x :: y :: ys
    else y :: insertFill asc x ys

/-- Insertion sort of fills by price, matching
`sorted(orders, key=lambda x: x['price'], reverse=not ascending)`. -/
def sortFills (asc : Bool) : List Fill → List Fill
  | [] => []
  | x :: xs => insertFill asc x (sortFills asc xs)

/-- `compress_order_list(order_list, ascending)`: group fills by price,
summing volumes; every compressed entry carries the conjunction of all
`market` flags (the source accumulates a single `market` variable over the
whole list); finally sort by price. -/
def compress_order_list (order_list : List Fill) (ascending : Bool) : List Fill :=
  let order_map := order_list.foldl (fun m f => addFillVolume f.price f.volume m) []
  let market := order_list.all (fun f => f.market)
  sortFills ascending (order_map.map (fun pv => ⟨pv.1, pv.2, market⟩))

/-- Best-bid search of `spread_return`: walk the buy orders best-price-first
and return the price of the first order whose range check succeeds; range
checks that raise are swallowed and the order is skipped. -/
def bestBidSearch (R : CheckRange) (regionId stationId : Nat) :
    List Order → Option ℚ
  | [] => none
  | o :: rest =>
    match R regionId stationId o.location_id o.order_range with
    | Except.ok true => some o.price
    | Except.ok false => bestBidSearch R regionId stationId rest
    | Except.error _ => bestBidSearch R regionId stationId rest

/-- `spread_return(snapshot, type_id, station_id, region_id)`: best ask is
the first extracted sell order's price (zero/neutral record if none); best
bid is found by `bestBidSearch` (neutral record if none); otherwise the
spread return is `(best_ask - best_bid) / best_bid`. -/
def spread_return (R : CheckRange) (snapshot : List Order)
    (type_id station_id region_id : Nat) : SpreadData :=
  match extract_sell_orders snapshot type_id station_id with
  | [] => ⟨0, none, none⟩
  | s0 :: _ =>
    let best_ask := s0.price
    match bestBidSearch R region_id station_id (extract_buy_orders snapshot type_id) with
    | none => ⟨0, none, none⟩
    | some best_bid => ⟨(best_ask - best_bid) / best_bid, some best_bid, some best_ask⟩

/-- Look up the first value bound to key `k` in an association list. -/
def alookup {α : Type} (k : Nat) : List (Nat × α) → Option α
  | [] => none
  | (k', v) :: rest => if k' = k then some v else alookup k rest

/-- Replace the value bound to key `k` (first occurrence). -/
def aupdate {α : Type} (k : Nat) (v : α) : List (Nat × α) → List (Nat × α)
  | [] => []
  | (k', w) :: rest =>
    if k' = k then (k', v) :: rest else (k', w) :: aupdate k v rest

/-- `all_sell_orders[k].extend(fl)`: append fills to the list bound to `k`. -/
def aappend (k : Nat) (fl : List Fill) : List (Nat × List Fill) → List (Nat × List Fill)
  | [] => [(k, fl)]
  | (k', l) :: rest =>
    if k' = k then (k', l ++ fl) :: rest else (k', l) :: aappend k fl rest

/-- The errors `attempt_opportunity` can raise in Python: a `KeyError` on the
type map, or an `IndexError` when a refined material has no volume row in
the market summary (`list(...)[0]` on an empty list). -/
inductive AttemptError
  | typeMissing
  | summaryMissing
deriving DecidableEq

/-- The configuration threaded through one opportunity attempt. -/
structure AttemptConfig where
  regionId : Nat
  stationId : Nat
  taxRate : ℚ
  efficiency : ℚ
  stationTax : ℚ
  brokerFee : ℚ
  volumeLimit : ℚ

/-- `limit_threshold = broker_fee / (1 - tax_rate - broker_fee)`. -/
def limit_threshold (taxRate brokerFee : ℚ) : ℚ :=
  brokerFee / (1 - taxRate - brokerFee)

/-- The opportunity record built by `attempt_opportunity` (time and type are
attached later by the scanner). -/
structure Opportunity where
  gross : ℚ
  cost : ℚ
  profit : ℚ
  margin : ℚ
  buy_orders : List Fill
  sell_orders : List (Nat × List Fill)
deriving DecidableEq

/-- The per-material mutable state of one attempt: the buy-order lists and
the remaining limit-order budgets. -/
structure MatState where
  buyMap : List (Nat × List Order)
  limitMax : List (Nat × ℚ)
deriving DecidableEq

/-- The state of the round loop of `attempt_opportunity`. -/
structure RoundState where
  sellOrderList : List Order
  buyOrderMap : List (Nat × List Order)
  limitOrderMax : List (Nat × ℚ)
  allBuyOrders : List Fill
  allSellOrders : List (Nat × List Fill)
  gross : ℚ
  cost : ℚ
deriving DecidableEq

/-- Liquidation of one refined material inside a round.  The source sets
`limit_sell = sr_data['spread_return'] > limit_threshold` and then either
places a single limit order at the best ask (capped by the remaining
limit-order budget; an exhausted budget yields no fill), or sells to the
market via the Order Matcher.  Returns the `limit_sell` flag, the fills,
the new budget and the (possibly consumed) buy-order list. -/
def sellMaterialRound (R : CheckRange) (regionId stationId : Nat)
    (limitThreshold : ℚ) (srData : SpreadData) (sellVolume limitBudget : ℚ)
    (buyOrders : List Order) : Bool × List Fill × ℚ × List Order :=
  if srData.spread_return > limitThreshold then
    let amount := min sellVolume limitBudget
    if amount > 0 then
      (true, [⟨srData.best_ask.getD 0, amount, false⟩], limitBudget - amount, buyOrders)
    else
      (true, [], limitBudget, buyOrders)
  else
    let r := attempt_sell_type_list R regionId stationId sellVolume buyOrders
    (false, r.1, limitBudget, r.2)

/-- The material loop of one round: for each refined material compute
`sell_volume = int(quantity * efficiency)`, liquidate it via
`sellMaterialRound`, and accumulate the round's gross
(`(1 - tax_rate - broker_fee)` of the proceeds for limit sales, else
`(1 - tax_rate)`) and the incremental refinement cost
(`station_tax` of the proceeds).  Any material that cannot be fully sold
aborts the whole round (`none`). -/
def sellRoundMaterials (R : CheckRange) (cfg : AttemptConfig) (limitThreshold : ℚ)
    (spreadMap : List (Nat × SpreadData)) :
    MatState → List MaterialInfo →
      Option (List (Nat × List Fill) × MatState × ℚ × ℚ)
  | ms, [] => some ([], ms, 0, 0)
  | ms, m :: rest =>
    let mt := m.materialTypeID
    let sr := (alookup mt spreadMap).getD ⟨0, none, none⟩
    let sellVolume : ℚ := ((pyInt ((m.quantity : ℚ) * cfg.efficiency) : ℤ) : ℚ)
    let bud := (alookup mt ms.limitMax).getD 0
    let orders := (alookup mt ms.buyMap).getD []
    let r := sellMaterialRound R cfg.regionId cfg.stationId limitThreshold sr
      sellVolume bud orders
    if r.2.1 = [] then none
    else
      let grossRatio := if r.1 then 1 - cfg.taxRate - cfg.brokerFee else 1 - cfg.taxRate
      let cg := grossRatio * sumCost r.2.1
      let cc := cfg.stationTax * sumCost r.2.1
      let ms' : MatState := ⟨aupdate mt r.2.2.2 ms.buyMap, aupdate mt r.2.2.1 ms.limitMax⟩
      match sellRoundMaterials R cfg limitThreshold spreadMap ms' rest with
      | none => none
      | some (sells, ms'', g, c) => some ((mt, r.2.1) :: sells, ms'', cg + g, cc + c)

/-- One iteration of the `while True` loop of `attempt_opportunity`: buy
`required_volume` of the source type (an empty fill terminates), liquidate
every refined material (a failed material terminates), and commit the round
to the running totals only when the round's cumulative gross strictly
exceeds its cumulative cost; otherwise terminate without committing. -/
def runRound (R : CheckRange) (cfg : AttemptConfig) (requiredVolume : ℚ)
    (materials : List MaterialInfo) (spreadMap : List (Nat × SpreadData))
    (st : RoundState) : Option RoundState :=
  let b := attempt_buy_type_list requiredVolume st.sellOrderList
  if b.1 = [] then none
  else
    let buyCost := sumCost b.1
    match sellRoundMaterials R cfg (limit_threshold cfg.taxRate cfg.brokerFee)
        spreadMap ⟨st.buyOrderMap, st.limitOrderMax⟩ materials with
    | none => none
    | some (sells, ms', cg, cc) =>
      if sells = [] then none
      else
        let currentCost := buyCost + cc
        let currentGross := cg
        if currentGross > currentCost then
          some ⟨b.2, ms'.buyMap, ms'.limitMax,
                st.allBuyOrders ++ b.1,
                sells.foldl (fun acc kv => aappend kv.1 kv.2 acc) st.allSellOrders,
                st.gross + currentGross, st.cost + currentCost⟩
        else none

/-- The round loop, on explicit fuel; exhausted fuel stops the loop exactly
like a `break`. -/
def attemptLoop (R : CheckRange) (cfg : AttemptConfig) (requiredVolume : ℚ)
    (materials : List MaterialInfo) (spreadMap : List (Nat × SpreadData)) :
    Nat → RoundState → RoundState
  | 0, st => st
  | Nat.succ n, st =>
    match runRound R cfg requiredVolume materials spreadMap st with
    | none => st
    | some st' => attemptLoop R cfg requiredVolume materials spreadMap n st'

/-- The per-material initialisation loop of `attempt_opportunity`: for each
refined material extract its buy orders, create its empty sell-order list,
set its total limit-order budget to
`list(market_summary[market_summary.type_id == mat]['volume'])[0] * volume_limit`
(an `IndexError` — `.error summaryMissing` — when the summary has no row for
the material), and capture its spread data. -/
def initMaterials (R : CheckRange) (snapshot : List Order)
    (stationId regionId : Nat) (marketSummary : List SummaryRow)
    (volumeLimit : ℚ) :
    List MaterialInfo →
      Except AttemptError
        (List (Nat × List Order) × List (Nat × List Fill) ×
          List (Nat × ℚ) × List (Nat × SpreadData))
  | [] => Except.ok ([], [], [], [])
  | m :: rest =>
    let mt := m.materialTypeID
    let buys := extract_buy_orders snapshot mt
    match (marketSummary.filter (fun s => s.type_id = mt)).map (fun s => s.volume) with
    | [] => Except.error AttemptError.summaryMissing
    | vol :: _ =>
      let lim := vol * volumeLimit
      let sd := spread_return R snapshot mt stationId regionId
      match initMaterials R snapshot stationId regionId marketSummary volumeLimit rest with
      | Except.error e => Except.error e
      | Except.ok (bm, aso, lom, sm) =>
        Except.ok ((mt, buys) :: bm, (mt, []) :: aso, (mt, lim) :: lom, (mt, sd) :: sm)

/-- `attempt_opportunity(snapshot, type_id, region_id, station_id, type_map,
tax_rate, efficiency, station_tax, broker_fee, market_summary, volume_limit)`.
Returns `Except.ok none` when no round ever profited, `Except.ok (some opp)`
when the committed rounds show `gross > cost`, and `Except.error` for the
exceptions the Python code can raise. -/
def attempt_opportunity (R : CheckRange) (snapshot : List Order) (typeId : Nat)
    (regionId stationId : Nat) (typeMap : List (Nat × SourceTypeInfo))
    (taxRate efficiency stationTax brokerFee : ℚ)
    (marketSummary : List SummaryRow) (volumeLimit : ℚ) (fuel : Nat) :
    Except AttemptError (Option Opportunity) :=
  match alookup typeId typeMap with
  | none => Except.error AttemptError.typeMissing
  | some info =>
    let requiredVolume : ℚ := (info.portionSize : ℚ)
    let sellOrderList := extract_sell_orders snapshot typeId stationId
    match initMaterials R snapshot stationId regionId marketSummary volumeLimit
        info.material_map with
    | Except.error e => Except.error e
    | Except.ok (buyMap, allSell0, limitMax, spreadMap) =>
      let cfg : AttemptConfig :=
        ⟨regionId, stationId, taxRate, efficiency, stationTax, brokerFee, volumeLimit⟩
      let st0 : RoundState := ⟨sellOrderList, buyMap, limitMax, [], allSell0, 0, 0⟩
      let stF := attemptLoop R cfg requiredVolume info.material_map spreadMap fuel st0
      if stF.gross > stF.cost then
        Except.ok (some
          { gross := stF.gross
            cost := stF.cost
            profit := stF.gross - stF.cost
            margin := (stF.gross - stF.cost) / stF.cost
            buy_orders := compress_order_list stF.allBuyOrders true
            sell_orders :=
              stF.allSellOrders.map (fun p => (p.1, compress_order_list p.2 false)) })
      else Except.ok none

instance exceptDecEq {ε α : Type} [DecidableEq ε] [DecidableEq α] :
    DecidableEq (Except ε α) := fun a b =>
  match a, b with
  | Except.error e, Except.error f =>
    if h : e = f then isTrue (by rw [h]) else isFalse (fun c => h (Except.error.inj c))
  | Except.ok x, Except.ok y =>
    if h : x = y then isTrue (by rw [h]) else isFalse (fun c => h (Except.ok.inj c))
  | Except.error _, Except.ok _ => isFalse (fun c => Except.noConfusion c)
  | Except.ok _, Except.error _ => isFalse (fun c => Except.noConfusion c)

/-- An opportunity as collected by the scanner: the snapshot time (modelled
in seconds), the source type's name (a numeric identifier here) and the
attempter's record. -/
structure TimedOpp where
  time : Int
  type : Nat
  opp : Opportunity
deriving DecidableEq

/-- Inner loop of `find_opportunities`: iterate the source types of one
snapshot, invoking `attempt_opportunity` on the (immutable) snapshot and
tagging each non-`None` result with the snapshot time and the type name.
An exception aborts the whole scan, as in Python. -/
def findOppsType (R : CheckRange) (snapshot : List Order) (snapshotTime : Int)
    (typeMap : List (Nat × SourceTypeInfo)) (stationId regionId : Nat)
    (efficiency salesTax stationTax brokerFee : ℚ)
    (marketSummary : List SummaryRow) (volumeLimit : ℚ) (fuel : Nat) :
    List (Nat × SourceTypeInfo) → Except AttemptError (List TimedOpp)
  | [] => Except.ok []
  | (_, info) :: rest =>
    match attempt_opportunity R snapshot info.typeID regionId stationId typeMap
        salesTax efficiency stationTax brokerFee marketSummary volumeLimit fuel with
    | Except.error e => Except.error e
    | Except.ok none =>
      findOppsType R snapshot snapshotTime typeMap stationId regionId efficiency
        salesTax stationTax brokerFee marketSummary volumeLimit fuel rest
    | Except.ok (some opp) =>
      match findOppsType R snapshot snapshotTime typeMap stationId regionId efficiency
          salesTax stationTax brokerFee marketSummary volumeLimit fuel rest with
      | Except.error e => Except.error e
      | Except.ok tail => Except.ok (⟨snapshotTime, info.typeName, opp⟩ :: tail)

/-- Outer loop of `find_opportunities`: iterate the time-indexed snapshots in
chronological order, concatenating each snapshot's opportunities. -/
def findOppsSnapshots (R : CheckRange) (typeMap : List (Nat × SourceTypeInfo))
    (stationId regionId : Nat) (efficiency salesTax stationTax brokerFee : ℚ)
    (marketSummary : List SummaryRow) (volumeLimit : ℚ) (fuel : Nat) :
    List (Int × List Order) → Except AttemptError (List TimedOpp)
  | [] => Except.ok []
  | (t, snap) :: rest =>
    match findOppsType R snap t typeMap stationId regionId efficiency salesTax
        stationTax brokerFee marketSummary volumeLimit fuel typeMap with
    | Except.error e => Except.error e
    | Except.ok xs =>
      match findOppsSnapshots R typeMap stationId regionId efficiency salesTax
          stationTax brokerFee marketSummary volumeLimit fuel rest with
      | Except.error e => Except.error e
      | Except.ok ys => Except.ok (xs ++ ys)

/-- `find_opportunities(order_book, type_map, station_id, region_id,
efficiency, sales_tax, station_tax, broker_fee, market_summary,
volume_limit)`; the order book is the chronological list of `(time,
snapshot)` groups produced by `order_book.groupby(order_book.index)`. -/
def find_opportunities (R : CheckRange) (order_book : List (Int × List Order))
    (type_map : List (Nat × SourceTypeInfo)) (station_id region_id : Nat)
    (efficiency sales_tax station_tax broker_fee : ℚ)
    (market_summary : List SummaryRow) (volume_limit : ℚ) (fuel : Nat) :
    Except AttemptError (List TimedOpp) :=
  findOppsSnapshots R type_map station_id region_id efficiency sales_tax
    station_tax broker_fee market_summary volume_limit fuel order_book

/-- The `stamp_list` scan of `clean_opportunities`: the first time of a type
starts a run; a later time is retained only when it exceeds the time of the
IMMEDIATELY PRECEDING opportunity (`last`, updated on every iteration,
retained or not) by more than 5 minutes (300 seconds). -/
def stampListAux : Option Int → List Int → List Int
  | _, [] => []
  | none, i :: rest => i :: stampListAux (some i) rest
  | some last, i :: rest =>
    if i - last > 300 then i :: stampListAux (some i) rest
    else stampListAux (some i) rest

/-- `stamp_map[next_type]`: the retained time stamps for one source type. -/
def stampFor (opps : List TimedOpp) (ty : Nat) : List Int :=
  stampListAux none ((opps.filter (fun o => o.type = ty)).map (fun o => o.time))

/-- `clean_opportunities(opps)`: rebuild the list keeping only opportunities
whose time is in their type's stamp list. -/
def clean_opportunities (opps : List TimedOpp) : List TimedOpp :=
  opps.filter (fun o => decide (o.time ∈ stampFor opps o.type))

/-- The per-type time stamps of an opportunity list, in list order. -/
def typeTimes (opps : List TimedOpp) (ty : Nat) : List Int :=
  (opps.filter (fun o => o.type = ty)).map (fun o => o.time)

/-- The retention rule of the deduplicator stated independently of the scan:
the first time is retained, and a later time is retained exactly when it
exceeds the time of the immediately preceding opportunity of the same type
(retained or not) by more than 5 minutes.  `retainedSpec` pairs every time
with its immediate predecessor in the original list and filters on the gap. -/
def retainedSpec : List Int → List Int
  | [] => []
  | t :: rest =>
    t :: (rest.zip (t :: rest)).filterMap
      (fun p => if p.1 - p.2 > 300 then some p.1 else none)

theorem sumVol_nil : sumVol [] = 0 := rfl

theorem sumVol_append (a b : List Fill) : sumVol (a ++ b) = sumVol a + sumVol b := by
  simp [sumVol]

theorem totalVolume_cons (o : Order) (l : List Order) :
    totalVolume (o :: l) = o.volume + totalVolume l := by
  simp [totalVolume]

theorem totalVolume_nonneg (l : List Order) (h : ∀ o ∈ l, 0 ≤ o.volume) :
    0 ≤ totalVolume l := by
  induction l with
  | nil => simp [totalVolume]
  | cons o rest ih =>
    rw [totalVolume_cons]
    have h1 := h o (List.mem_cons_self o rest)
    have h2 := ih (fun x hx => h x (List.mem_cons_of_mem o hx))
    linarith

theorem attemptBuyGo_sum (l : List Order) :
    ∀ (v : ℚ) (acc : List Fill),
      (attemptBuyGo v acc l).1 = [] ∨
        sumVol (attemptBuyGo v acc l).1 = sumVol acc + v := by
  induction l with
  | nil => intro v acc; left; rfl
  | cons o rest ih =>
    intro v acc
    simp only [attemptBuyGo]
    split_ifs with h1 h2 h3
    · right
      have hv : min v o.volume = v := by
        have := sub_eq_zero.mp h2
        linarith
      simp [sumVol_append, sumVol, hv]
    · rcases ih (v - min v o.volume) (acc ++ [⟨o.price, min v o.volume, true⟩]) with h | h
      · left; exact h
      · right
        rw [h, sumVol_append]
        simp [sumVol]
    · right; rw [h3]; ring
    · rcases ih v acc with h | h
      · left; exact h
      · right; exact h

theorem attemptBuyGo_insufficient (l : List Order) :
    ∀ (v : ℚ) (acc : List Fill), (∀ o ∈ l, 0 ≤ o.volume) →
      totalVolume l < v → (attemptBuyGo v acc l).1 = [] := by
  induction l with
  | nil => intro v acc _ _; rfl
  | cons o rest ih =>
    intro v acc hnn hv
    have hnn0 : 0 ≤ o.volume := hnn o (List.mem_cons_self o rest)
    have hnnr : ∀ x ∈ rest, 0 ≤ x.volume := fun x hx => hnn x (List.mem_cons_of_mem o hx)
    have htr : 0 ≤ totalVolume rest := totalVolume_nonneg rest hnnr
    rw [totalVolume_cons] at hv
    have hov : o.volume < v := by linarith
    have hmin : min v o.volume = o.volume := min_eq_right (le_of_lt hov)
    have hvpos : 0 < v := by linarith
    simp only [attemptBuyGo]
    split_ifs with h1 h2 h3
    · exfalso
      rw [hmin] at h2
      have := sub_eq_zero.mp h2
      linarith
    · rw [hmin]
      exact ih (v - o.volume) _ hnnr (by linarith)
    · exact absurd h3 (ne_of_gt hvpos)
    · exact ih v acc hnnr (by linarith)

theorem attemptSellGo_sum (R : CheckRange) (rg stn : Nat) (l : List Order) :
    ∀ (v : ℚ) (acc : List Fill),
      (attemptSellGo R rg stn v acc l).1 = [] ∨
        sumVol (attemptSellGo R rg stn v acc l).1 = sumVol acc + v := by
  induction l with
  | nil => intro v acc; left; rfl
  | cons o rest ih =>
    intro v acc
    simp only [attemptSellGo]
    split_ifs with h1 h2 h3
    · right
      have hv : min v o.volume = v := by
        have := sub_eq_zero.mp h2
        linarith
      simp [sumVol_append, sumVol, hv]
    · rcases ih (v - min v o.volume) (acc ++ [⟨o.price, min v o.volume, true⟩]) with h | h
      · left; exact h
      · right
        rw [h, sumVol_append]
        simp [sumVol]
    · right; rw [h3]; ring
    · rcases ih v acc with h | h
      · left; exact h
      · right; exact h

theorem attemptSellGo_insufficient (R : CheckRange) (rg stn : Nat) (l : List Order) :
    ∀ (v : ℚ) (acc : List Fill), (∀ o ∈ l, 0 ≤ o.volume) →
      totalVolume l < v → (attemptSellGo R rg stn v acc l).1 = [] := by
  induction l with
  | nil => intro v acc _ _; rfl
  | cons o rest ih =>
    intro v acc hnn hv
    have hnn0 : 0 ≤ o.volume := hnn o (List.mem_cons_self o rest)
    have hnnr : ∀ x ∈ rest, 0 ≤ x.volume := fun x hx => hnn x (List.mem_cons_of_mem o hx)
    have htr : 0 ≤ totalVolume rest := totalVolume_nonneg rest hnnr
    rw [totalVolume_cons] at hv
    have hov : o.volume < v := by linarith
    have hmin : min v o.volume = o.volume := min_eq_right (le_of_lt hov)
    have hvpos : 0 < v := by linarith
    simp only [attemptSellGo]
    split_ifs with h1 h2 h3
    · exfalso
      rw [hmin] at h2
      have := sub_eq_zero.mp h2
      linarith
    · rw [hmin]
      exact ih (v - o.volume) _ hnnr (by linarith)
    · exact absurd h3 (ne_of_gt hvpos)
    · exact ih v acc hnnr (by linarith)

/-- C1: for every call to the Order Matcher (`attempt_buy_type_list`, and
`attempt_sell_type_list` on the sell side) with a required volume and a
best-price-first order list, a non-empty returned fill list sums exactly to
the required volume, and when the list cannot cover the required volume
(exhausted with remaining volume > 0) the result is the empty list — a
partial fill is never returned. -/
theorem order_matcher_all_or_nothing :
    (∀ (v : ℚ) (l : List Order),
        (attempt_buy_type_list v l).1 = [] ∨ sumVol (attempt_buy_type_list v l).1 = v)
    ∧ (∀ (R : CheckRange) (rg stn : Nat) (v : ℚ) (l : List Order),
        (attempt_sell_type_list R rg stn v l).1 = [] ∨
          sumVol (attempt_sell_type_list R rg stn v l).1 = v)
    ∧ (∀ (v : ℚ) (l : List Order), (∀ o ∈ l, 0 ≤ o.volume) →
        totalVolume l < v → (attempt_buy_type_list v l).1 = [])
    ∧ (∀ (R : CheckRange) (rg stn : Nat) (v : ℚ) (l : List Order),
        (∀ o ∈ l, 0 ≤ o.volume) →
        totalVolume l < v → (attempt_sell_type_list R rg stn v l).1 = []) := by
  refine ⟨fun v l => ?_, fun R rg stn v l => ?_, fun v l h1 h2 => ?_,
    fun R rg stn v l h1 h2 => ?_⟩
  · rcases attemptBuyGo_sum l v [] with h | h
    · exact Or.inl h
    · right
      rw [attempt_buy_type_list, h, sumVol_nil, zero_add]
  · rcases attemptSellGo_sum R rg stn l v [] with h | h
    · exact Or.inl h
    · right
      rw [attempt_sell_type_list, h, sumVol_nil, zero_add]
  · exact attemptBuyGo_insufficient l v [] h1 h2
  · exact attemptSellGo_insufficient R rg stn l v [] h1 h2

/-- A concrete order used by the witnesses below: the spec's worked example
`{price=100, volume=50, min_volume=1}`. -/
def exOrder : Order := ⟨3, 100, false, 100, 50, 1, 0⟩

/-- Witness for C1: requesting volume 60 against a single order of volume 50
returns the empty fill list (both matchers), by the theorem's insufficiency
clauses at this input. -/
theorem order_matcher_all_or_nothing_witness :
    (attempt_buy_type_list 60 [exOrder]).1 = []
    ∧ (attempt_sell_type_list (fun _ _ _ _ => Except.ok true) 7 100 60 [exOrder]).1 = [] := by
  constructor
  · exact order_matcher_all_or_nothing.2.2.1 60 [exOrder]
      (by intro o ho; simp [exOrder] at ho; rw [ho]; norm_num [exOrder])
      (by norm_num [totalVolume, exOrder])
  · exact order_matcher_all_or_nothing.2.2.2 (fun _ _ _ _ => Except.ok true) 7 100 60 [exOrder]
      (by intro o ho; simp [exOrder] at ho; rw [ho]; norm_num [exOrder])
      (by norm_num [totalVolume, exOrder])

/-- A range checker that always succeeds with `true`. -/
def checkRangeOk : CheckRange := fun _ _ _ _ => Except.ok true

/-- A range checker that always raises. -/
def checkRangeErr : CheckRange := fun _ _ _ _ => Except.error ()

/-- A buy-side copy of `exOrder`. -/
def exBuyOrder : Order := ⟨3, 100, true, 100, 50, 1, 0⟩

/-- C9: the Order Matcher is not atomic on failure: requesting 60 units
against a single order of volume 50 returns the empty fill list, yet the
order in the caller's list has already had its volume decremented to 0
(both for `attempt_buy_type_list` and `attempt_sell_type_list`). -/
theorem order_matcher_mutates_on_failure :
    attempt_buy_type_list 60 [exOrder] = ([], [⟨3, 100, false, 100, 0, 1, 0⟩])
    ∧ attempt_sell_type_list checkRangeOk 7 100 60 [exBuyOrder]
        = ([], [⟨3, 100, true, 100, 0, 1, 0⟩])
    ∧ exOrder.volume = 50 ∧ exBuyOrder.volume = 50 := by
  refine ⟨?_, ?_, rfl, rfl⟩
  · norm_num [attempt_buy_type_list, attemptBuyGo, exOrder]
  · norm_num [attempt_sell_type_list, attemptSellGo, exBuyOrder, checkRangeOk]

/-- C8: a range-check failure (exception) for a candidate buy order is never
fatal: `attempt_sell_type_list` behaves on an order whose range check raises
exactly as if the order were skipped — the fills are those of the remaining
list and the offending order is left untouched in place (provided the
remaining volume is non-zero, in which case the loop would stop anyway) —
and the best-bid search of `spread_return` skips the offending order and
continues with the next. -/
theorem range_check_error_skips_order :
    (∀ (R : CheckRange) (rg stn : Nat) (o : Order) (u : Unit) (v : ℚ) (l : List Order),
        R rg stn o.location_id o.order_range = Except.error u → v ≠ 0 →
        attempt_sell_type_list R rg stn v (o :: l)
          = ((attempt_sell_type_list R rg stn v l).1,
              o :: (attempt_sell_type_list R rg stn v l).2))
    ∧ (∀ (R : CheckRange) (rg stn : Nat) (o : Order) (u : Unit) (l : List Order),
        R rg stn o.location_id o.order_range = Except.error u →
        bestBidSearch R rg stn (o :: l) = bestBidSearch R rg stn l) := by
  constructor
  · intro R rg stn o u v l h hv
    simp only [attempt_sell_type_list, attemptSellGo, h]
    simp [hv]
  · intro R rg stn o u l h
    simp only [bestBidSearch, h]

/-- Witness for C8: with a range checker that always raises, the matcher on
a one-order list skips the order (returning no fills and leaving the order
intact) and the best-bid search finds nothing. -/
theorem range_check_error_skips_order_witness :
    attempt_sell_type_list checkRangeErr 7 100 5 [exBuyOrder]
      = ((attempt_sell_type_list checkRangeErr 7 100 5 []).1,
          exBuyOrder :: (attempt_sell_type_list checkRangeErr 7 100 5 []).2)
    ∧ bestBidSearch checkRangeErr 7 100 [exBuyOrder]
        = bestBidSearch checkRangeErr 7 100 [] := by
  constructor
  · exact range_check_error_skips_order.1 checkRangeErr 7 100 exBuyOrder () 5 []
      rfl (by norm_num)
  · exact range_check_error_skips_order.2 checkRangeErr 7 100 exBuyOrder () [] rfl

/-- C2: every `Opportunity` returned by `attempt_opportunity` satisfies
`profit = gross - cost` and `margin = profit / cost`, and an opportunity is
returned only when `gross > cost` (strictly positive profit). -/
theorem attempt_opportunity_profit_margin_invariant
    (R : CheckRange) (snapshot : List Order) (typeId rg stn : Nat)
    (tm : List (Nat × SourceTypeInfo)) (τ eff stax b : ℚ)
    (summ : List SummaryRow) (lim : ℚ) (fuel : Nat) (opp : Opportunity)
    (h : attempt_opportunity R snapshot typeId rg stn tm τ eff stax b summ lim fuel
          = Except.ok (some opp)) :
    opp.profit = opp.gross - opp.cost ∧ opp.margin = opp.profit / opp.cost
      ∧ opp.gross > opp.cost := by
  simp only [attempt_opportunity] at h
  split at h
  · simp at h
  · split at h
    · simp at h
    · split at h
      · rename_i hgc
        have hopp := Option.some.inj (Except.ok.inj h)
        rw [← hopp]
        exact ⟨rfl, rfl, hgc⟩
      · simp at h

/-- Concrete scenario: a sell order for two units of source type 1 at 10 ISK. -/
def exSrcSell : Order := ⟨1, 100, false, 10, 2, 1, 0⟩

/-- Concrete scenario: a buy order for ten units of refined material 11 at 100 ISK. -/
def exMatBuy : Order := ⟨11, 100, true, 100, 10, 1, 0⟩

/-- Concrete scenario: a snapshot holding the two orders above. -/
def exSnap : List Order := [exSrcSell, exMatBuy]

/-- Concrete scenario: source type 1 (named 77) refines two portions into
four units of material 11. -/
def exInfo : SourceTypeInfo := ⟨1, 77, 2, [⟨11, 4⟩]⟩

/-- Concrete scenario: the type map holding `exInfo`. -/
def exTypeMap : List (Nat × SourceTypeInfo) := [(1, exInfo)]

/-- Concrete scenario: material 11 trades 1000 units a day. -/
def exSummary : List SummaryRow := [⟨11, 1000⟩]

/-- The opportunity found on `exSnap`: buy 2 units at 10, refine, sell 2
units of material 11 at 100 on the market; with a 1% sales tax and 1%
station tax this grosses 198 against a cost of 22. -/
def exOpp : Opportunity :=
  ⟨198, 22, 176, 8, [⟨10, 2, true⟩], [(11, [⟨100, 2, true⟩])]⟩

/-- Witness for C2: on the concrete snapshot `exSnap` the attempter returns
`exOpp`, whose fields satisfy the invariant. -/
theorem attempt_opportunity_profit_margin_invariant_witness :
    exOpp.profit = exOpp.gross - exOpp.cost ∧ exOpp.margin = exOpp.profit / exOpp.cost
      ∧ exOpp.gross > exOpp.cost :=
  attempt_opportunity_profit_margin_invariant checkRangeOk exSnap 1 7 100 exTypeMap
    (1/100) (1/2) (1/100) (1/40) exSummary (1/10) 5 exOpp (by
      norm_num [attempt_opportunity, alookup, initMaterials, extract_buy_orders,
        extract_sell_orders, spread_return, bestBidSearch, attemptLoop, runRound,
        attempt_buy_type_list, attemptBuyGo, sellRoundMaterials, sellMaterialRound,
        attempt_sell_type_list, attemptSellGo, limit_threshold, sumCost,
        compress_order_list, addFillVolume, sortFills, insertFill, aupdate, aappend,
        pyInt, checkRangeOk, exSnap, exSrcSell, exMatBuy, exInfo, exTypeMap,
        exSummary, exOpp])

/-- C3: `attempt_opportunity` never commits a round whose gross does not
strictly exceed its cost: whenever the round loop body commits (returns a
new state), the committed round's contribution to the running totals has
`gross` delta strictly above `cost` delta; a non-profitable round returns
`none`, terminating the attempt without committing. -/
theorem runRound_commits_only_profitable (R : CheckRange) (cfg : AttemptConfig)
    (rv : ℚ) (materials : List MaterialInfo) (sm : List (Nat × SpreadData))
    (st st' : RoundState)
    (h : runRound R cfg rv materials sm st = some st') :
    st'.gross - st.gross > st'.cost - st.cost := by
  simp only [runRound] at h
  split at h
  · simp at h
  · split at h
    · simp at h
    · split at h
      · simp at h
      · split at h
        · rename_i hprof
          have hst := Option.some.inj h
          rw [← hst]
          dsimp only
          linarith
        · simp at h

/-- Concrete configuration for the round-loop witnesses. -/
def exCfg : AttemptConfig := ⟨7, 100, 1/100, 1/2, 1/100, 1/40, 1/10⟩

/-- The round-loop state at the start of the `exSnap` scenario. -/
def exSt0 : RoundState :=
  ⟨[exSrcSell], [(11, [exMatBuy])], [(11, 100)], [], [(11, [])], 0, 0⟩

/-- The round-loop state after the one profitable round of the `exSnap`
scenario: both orders partially consumed, totals 198 gross / 22 cost. -/
def exSt1 : RoundState :=
  ⟨[⟨1, 100, false, 10, 0, 1, 0⟩], [(11, [⟨11, 100, true, 100, 8, 1, 0⟩])],
    [(11, 100)], [⟨10, 2, true⟩], [(11, [⟨100, 2, true⟩])], 198, 22⟩

/-- Witness for C3: the concrete round from `exSt0` commits and its deltas
satisfy the strict-profit inequality. -/
theorem runRound_commits_only_profitable_witness :
    exSt1.gross - exSt0.gross > exSt1.cost - exSt0.cost :=
  runRound_commits_only_profitable checkRangeOk exCfg 2 [⟨11, 4⟩]
    [(11, ⟨0, none, none⟩)] exSt0 exSt1 (by
      norm_num [runRound, attempt_buy_type_list, attemptBuyGo, sellRoundMaterials,
        sellMaterialRound, attempt_sell_type_list, attemptSellGo, limit_threshold,
        sumCost, alookup, aupdate, aappend, pyInt, checkRangeOk, exCfg, exSt0,
        exSt1, exSrcSell, exMatBuy])

/-- C4: in every round, a refined material is liquidated in limit mode if
and only if its precomputed `spread_return` strictly exceeds
`limit_threshold = brokerFee / (1 - taxRate - brokerFee)`; in particular,
with `taxRate = 1/100` and `brokerFee = 1/40 = 0.025` (threshold `5/193 ≈
0.0259`), a material with `spread_return = 1/20 = 0.05` (best ask 105, best
bid 100) is sold in limit mode, as a single non-market fill at the best
ask. -/
theorem limit_mode_iff_spread_exceeds_threshold :
    (∀ (R : CheckRange) (rg stn : Nat) (τ b : ℚ) (sr : SpreadData)
        (v bud : ℚ) (orders : List Order),
        (sellMaterialRound R rg stn (limit_threshold τ b) sr v bud orders).1 = true
          ↔ sr.spread_return > b / (1 - τ - b))
    ∧ (sellMaterialRound checkRangeOk 7 100 (limit_threshold (1/100) (1/40))
        ⟨1/20, some 100, some 105⟩ 2 100 []).1 = true
    ∧ (sellMaterialRound checkRangeOk 7 100 (limit_threshold (1/100) (1/40))
        ⟨1/20, some 100, some 105⟩ 2 100 []).2.1 = [⟨105, 2, false⟩] := by
  refine ⟨fun R rg stn τ b sr v bud orders => ?_, ?_, ?_⟩
  · simp only [sellMaterialRound, limit_threshold]
    split_ifs with h1 h2
    · simpa using h1
    · simpa using h1
    · simpa using h1
  · norm_num [sellMaterialRound, limit_threshold]
  · norm_num [sellMaterialRound, limit_threshold]

/-- A zero-priced sell order for the source type: buying it costs nothing. -/
def exSrcSellFree : Order := ⟨1, 100, false, 0, 2, 1, 0⟩

/-- Snapshot for the zero-cost scenario. -/
def exSnapFree : List Order := [exSrcSellFree, exMatBuy]

/-- The opportunity emitted on `exSnapFree` with `station_tax = 0`: total
cost 0 and gross 198.  Its `margin` field is the unguarded quotient
`(gross - cost) / cost` with `cost = 0` (which totalises to `0` in `ℚ`;
Python instead divides by zero at this very spot). -/
def exOppFree : Opportunity :=
  ⟨198, 0, 198, 0, [⟨0, 2, true⟩], [(11, [⟨100, 2, true⟩])]⟩

/-- C6: the margin computation of `attempt_opportunity` is NOT guarded
against zero cost: on a concrete input (a zero-priced source sell order and
zero station tax) an opportunity with total cost 0 and strictly positive
gross is emitted, so `margin = (gross - cost)/cost` divides by zero instead
of being skipped or guarded as the spec requires. -/
theorem attempt_opportunity_zero_cost_unguarded :
    attempt_opportunity checkRangeOk exSnapFree 1 7 100 exTypeMap (1/100) (1/2) 0 (1/40)
        exSummary (1/10) 5 = Except.ok (some exOppFree)
    ∧ exOppFree.cost = 0 ∧ 0 < exOppFree.gross
    ∧ exOppFree.margin = (exOppFree.gross - exOppFree.cost) / exOppFree.cost := by
  refine ⟨?_, rfl, by norm_num [exOppFree], by norm_num [exOppFree]⟩
  norm_num [attempt_opportunity, alookup, initMaterials, extract_buy_orders,
    extract_sell_orders, spread_return, bestBidSearch, attemptLoop, runRound,
    attempt_buy_type_list, attemptBuyGo, sellRoundMaterials, sellMaterialRound,
    attempt_sell_type_list, attemptSellGo, limit_threshold, sumCost,
    compress_order_list, addFillVolume, sortFills, insertFill, aupdate, aappend,
    pyInt, checkRangeOk, exSnapFree, exSrcSellFree, exMatBuy, exInfo, exTypeMap,
    exSummary, exOppFree]

theorem initMaterials_missing (R : CheckRange) (snapshot : List Order)
    (stn rg : Nat) (summ : List SummaryRow) (lim : ℚ) :
    ∀ mats : List MaterialInfo,
      (∃ m ∈ mats, summ.filter (fun s => s.type_id = m.materialTypeID) = []) →
      initMaterials R snapshot stn rg summ lim mats
        = Except.error AttemptError.summaryMissing := by
  intro mats
  induction mats with
  | nil =>
    rintro ⟨m, hm, _⟩
    exact absurd hm (List.not_mem_nil m)
  | cons m rest ih =>
    rintro ⟨m', hm', hf⟩
    simp only [initMaterials]
    rcases List.mem_cons.mp hm' with he | hr
    · subst he
      rw [hf]
      simp
    · split
      · rfl
      · rw [ih ⟨m', hr, hf⟩]

/-- C10: `attempt_opportunity` is partial in the market summary: whenever a
refined material in the source type's material map has no volume row in the
market summary, the limit-order-budget lookup (`list(...)[0]` on an empty
list in the source) makes the attempt fail with an error rather than
terminating gracefully or returning `None`. -/
theorem attempt_opportunity_missing_summary_errors (R : CheckRange)
    (snapshot : List Order) (typeId rg stn : Nat)
    (tm : List (Nat × SourceTypeInfo)) (τ eff stax b : ℚ)
    (summ : List SummaryRow) (lim : ℚ) (fuel : Nat) (info : SourceTypeInfo)
    (hinfo : alookup typeId tm = some info)
    (hmiss : ∃ m ∈ info.material_map,
      summ.filter (fun s => s.type_id = m.materialTypeID) = []) :
    attempt_opportunity R snapshot typeId rg stn tm τ eff stax b summ lim fuel
      = Except.error AttemptError.summaryMissing := by
  simp only [attempt_opportunity, hinfo]
  rw [initMaterials_missing R snapshot stn rg summ lim info.material_map hmiss]

/-- Witness for C10: with an empty market summary, the attempt on `exSnap`
raises (material 11 has no volume row). -/
theorem attempt_opportunity_missing_summary_errors_witness :
    attempt_opportunity checkRangeOk exSnap 1 7 100 exTypeMap (1/100) (1/2) (1/100)
        (1/40) [] (1/10) 5 = Except.error AttemptError.summaryMissing :=
  attempt_opportunity_missing_summary_errors checkRangeOk exSnap 1 7 100 exTypeMap
    (1/100) (1/2) (1/100) (1/40) [] (1/10) 5 exInfo
    (by norm_num [alookup, exTypeMap])
    ⟨⟨11, 4⟩, by norm_num [exInfo], rfl⟩

theorem findOppsType_mem (R : CheckRange) (snap : List Order) (t : Int)
    (tm : List (Nat × SourceTypeInfo)) (stn rg : Nat) (eff τ stax b : ℚ)
    (summ : List SummaryRow) (lim : ℚ) (fuel : Nat) :
    ∀ (l : List (Nat × SourceTypeInfo)) (xs : List TimedOpp),
      findOppsType R snap t tm stn rg eff τ stax b summ lim fuel l = Except.ok xs →
      ∀ o ∈ xs, ∃ p ∈ l, o.time = t ∧ o.type = p.2.typeName ∧
        attempt_opportunity R snap p.2.typeID rg stn tm τ eff stax b summ lim fuel
          = Except.ok (some o.opp) := by
  intro l
  induction l with
  | nil =>
    intro xs h o ho
    simp only [findOppsType] at h
    rw [← Except.ok.inj h] at ho
    exact absurd ho (List.not_mem_nil o)
  | cons p rest ih =>
    intro xs h o ho
    obtain ⟨k, info⟩ := p
    simp only [findOppsType] at h
    split at h
    · exact absurd h (by simp)
    · obtain ⟨q, hq, hprops⟩ := ih xs h o ho
      exact ⟨q, List.mem_cons_of_mem _ hq, hprops⟩
    · rename_i opp hatt
      split at h
      · exact absurd h (by simp)
      · rename_i tail htail
        rw [← Except.ok.inj h] at ho
        rcases List.mem_cons.mp ho with he | ht
        · exact ⟨(k, info), List.mem_cons_self _ _, by rw [he], by rw [he], by
            rw [he]; exact hatt⟩
        · obtain ⟨q, hq, hprops⟩ := ih tail htail o ht
          exact ⟨q, List.mem_cons_of_mem _ hq, hprops⟩

theorem findOppsSnapshots_mem (R : CheckRange) (tm : List (Nat × SourceTypeInfo))
    (stn rg : Nat) (eff τ stax b : ℚ) (summ : List SummaryRow) (lim : ℚ)
    (fuel : Nat) :
    ∀ (ob : List (Int × List Order)) (ys : List TimedOpp),
      findOppsSnapshots R tm stn rg eff τ stax b summ lim fuel ob = Except.ok ys →
      ∀ o ∈ ys, ∃ ts ∈ ob, ∃ p ∈ tm, o.time = ts.1 ∧ o.type = p.2.typeName ∧
        attempt_opportunity R ts.2 p.2.typeID rg stn tm τ eff stax b summ lim fuel
          = Except.ok (some o.opp) := by
  intro ob
  induction ob with
  | nil =>
    intro ys h o ho
    simp only [findOppsSnapshots] at h
    rw [← Except.ok.inj h] at ho
    exact absurd ho (List.not_mem_nil o)
  | cons ts rest ih =>
    intro ys h o ho
    obtain ⟨t, snap⟩ := ts
    simp only [findOppsSnapshots] at h
    split at h
    · exact absurd h (by simp)
    · rename_i xs hxs
      split at h
      · exact absurd h (by simp)
      · rename_i ys' hys
        rw [← Except.ok.inj h] at ho
        rcases List.mem_append.mp ho with hx | hy
        · obtain ⟨q, hq, h1, h2, h3⟩ :=
            findOppsType_mem R snap t tm stn rg eff τ stax b summ lim fuel tm xs hxs o hx
          exact ⟨(t, snap), List.mem_cons_self _ _, q, hq, h1, h2, h3⟩
        · obtain ⟨ts', hts, q, hq, hprops⟩ := ih ys' hys o hy
          exact ⟨ts', List.mem_cons_of_mem _ hts, q, hq, hprops⟩

/-- C7: running the Scanner twice on identical order-book, type-map and
market-summary inputs yields identical opportunity lists (the embedding is
pure: each attempt re-extracts its own order lists from the immutable
snapshot, mirroring the source, where `iterrows()` hands each attempt fresh
row copies and nothing written inside an attempt reaches the DataFrame);
moreover every collected opportunity is reproduced by an independent
`attempt_opportunity` run on the pristine snapshot it came from — volume
consumed inside one attempt never affects another attempt, another
snapshot, or a second run. -/
theorem find_opportunities_idempotent_and_isolated :
    (∀ (R : CheckRange) (ob : List (Int × List Order))
        (tm : List (Nat × SourceTypeInfo)) (stn rg : Nat) (eff τ stax b : ℚ)
        (summ : List SummaryRow) (lim : ℚ) (fuel : Nat),
        find_opportunities R ob tm stn rg eff τ stax b summ lim fuel
          = find_opportunities R ob tm stn rg eff τ stax b summ lim fuel)
    ∧ (∀ (R : CheckRange) (ob : List (Int × List Order))
        (tm : List (Nat × SourceTypeInfo)) (stn rg : Nat) (eff τ stax b : ℚ)
        (summ : List SummaryRow) (lim : ℚ) (fuel : Nat) (ys : List TimedOpp),
        find_opportunities R ob tm stn rg eff τ stax b summ lim fuel = Except.ok ys →
        ∀ o ∈ ys, ∃ ts ∈ ob, ∃ p ∈ tm, o.time = ts.1 ∧ o.type = p.2.typeName ∧
          attempt_opportunity R ts.2 p.2.typeID rg stn tm τ eff stax b summ lim fuel
            = Except.ok (some o.opp)) := by
  refine ⟨fun _ _ _ _ _ _ _ _ _ _ _ _ => rfl, ?_⟩
  intro R ob tm stn rg eff τ stax b summ lim fuel ys h o ho
  exact findOppsSnapshots_mem R tm stn rg eff τ stax b summ lim fuel ob ys h o ho

/-- Witness for C7: on a one-snapshot, one-type scan the collected
opportunity is reproduced by an independent attempt on the pristine
snapshot. -/
theorem find_opportunities_idempotent_and_isolated_witness :
    ∃ ts ∈ [((5 : Int), exSnap)], ∃ p ∈ exTypeMap,
      (⟨5, 77, exOpp⟩ : TimedOpp).time = ts.1
      ∧ (⟨5, 77, exOpp⟩ : TimedOpp).type = p.2.typeName
      ∧ attempt_opportunity checkRangeOk ts.2 p.2.typeID 7 100 exTypeMap (1/100) (1/2)
          (1/100) (1/40) exSummary (1/10) 5
          = Except.ok (some (⟨5, 77, exOpp⟩ : TimedOpp).opp) :=
  find_opportunities_idempotent_and_isolated.2 checkRangeOk [((5 : Int), exSnap)]
    exTypeMap 100 7 (1/2) (1/100) (1/100) (1/40) exSummary (1/10) 5
    [⟨5, 77, exOpp⟩]
    (by norm_num [find_opportunities, findOppsSnapshots, findOppsType,
      attempt_opportunity, alookup, initMaterials, extract_buy_orders,
      extract_sell_orders, spread_return, bestBidSearch, attemptLoop, runRound,
      attempt_buy_type_list, attemptBuyGo, sellRoundMaterials, sellMaterialRound,
      attempt_sell_type_list, attemptSellGo, limit_threshold, sumCost,
      compress_order_list, addFillVolume, sortFills, insertFill, aupdate, aappend,
      pyInt, checkRangeOk, exSnap, exSrcSell, exMatBuy, exInfo, exTypeMap,
      exSummary, exOpp])
    ⟨5, 77, exOpp⟩ (List.mem_singleton.mpr rfl)

theorem stampListAux_zip (rest : List Int) :
    ∀ t : Int,
      stampListAux (some t) rest
        = (rest.zip (t :: rest)).filterMap
            (fun p => if p.1 - p.2 > 300 then some p.1 else none) := by
  induction rest with
  | nil => intro t; rfl
  | cons i rest' ih =>
    intro t
    simp only [stampListAux, List.zip_cons_cons, List.filterMap_cons]
    split_ifs with h
    · simp only [h, if_pos h, ih i]
    · simp only [h, if_neg h, ih i]

theorem stampListAux_eq_retainedSpec : ∀ ts : List Int,
    stampListAux none ts = retainedSpec ts := by
  intro ts
  cases ts with
  | nil => rfl
  | cons t rest =>
    simp only [stampListAux, retainedSpec, stampListAux_zip]

theorem stampListAux_sublist (ts : List Int) :
    ∀ acc : Option Int, List.Sublist (stampListAux acc ts) ts := by
  induction ts with
  | nil =>
    intro acc
    cases acc <;> exact List.Sublist.refl []
  | cons i rest ih =>
    intro acc
    cases acc with
    | none =>
      simp only [stampListAux]
      exact (ih (some i)).cons₂ i
    | some last =>
      simp only [stampListAux]
      split_ifs with h
      · exact (ih (some i)).cons₂ i
      · exact (ih (some i)).cons i

theorem filter_mem_of_sublist_nodup {α : Type} [DecidableEq α] :
    ∀ {S ts : List α}, List.Sublist S ts → ts.Nodup →
      ts.filter (fun x => decide (x ∈ S)) = S := by
  intro S ts hsub
  induction hsub with
  | slnil => intro _; rfl
  | cons a hsub ih =>
    rename_i l₁ l₂
    intro hnd
    have hnc := List.nodup_cons.mp hnd
    have ha : a ∉ l₁ := fun haS => hnc.1 (hsub.subset haS)
    simp only [List.filter_cons, decide_eq_true_eq]
    rw [if_neg ha]
    exact ih hnc.2
  | cons₂ a hsub ih =>
    rename_i l₁ l₂
    intro hnd
    have hnc := List.nodup_cons.mp hnd
    simp only [List.filter_cons, decide_eq_true_eq]
    rw [if_pos (List.mem_cons_self a l₁)]
    have hcongr : ∀ x ∈ l₂, (decide (x ∈ a :: l₁) : Bool) = decide (x ∈ l₁) := by
      intro x hx
      have hxa : x ≠ a := fun he => hnc.1 (he ▸ hx)
      simp [List.mem_cons, hxa]
    rw [List.filter_congr hcongr]
    rw [ih hnc.2]

theorem stampGapBound (ts : List Int) :
    ∀ last : Int, ts.Pairwise (· ≤ ·) → (∀ x ∈ ts, last ≤ x) →
      ∀ y ∈ stampListAux (some last) ts, last + 300 < y := by
  induction ts with
  | nil => intro last _ _ y hy; exact absurd hy (List.not_mem_nil y)
  | cons i rest ih =>
    intro last hp hb y hy
    have hpc := List.pairwise_cons.mp hp
    have hbi : last ≤ i := hb i (List.mem_cons_self i rest)
    simp only [stampListAux] at hy
    split_ifs at hy with hgap
    · rcases List.mem_cons.mp hy with he | ht
      · subst he; linarith
      · have := ih i hpc.2 hpc.1 y ht
        linarith
    · have := ih i hpc.2 hpc.1 y hy
      linarith

theorem stampGapPairwiseSome (ts : List Int) :
    ∀ last : Int, ts.Pairwise (· ≤ ·) → (∀ x ∈ ts, last ≤ x) →
      (stampListAux (some last) ts).Pairwise (fun a b => a + 300 < b) := by
  induction ts with
  | nil => intro last _ _; simp [stampListAux]
  | cons i rest ih =>
    intro last hp hb
    have hpc := List.pairwise_cons.mp hp
    simp only [stampListAux]
    split_ifs with hgap
    · exact List.pairwise_cons.mpr
        ⟨stampGapBound rest i hpc.2 hpc.1, ih i hpc.2 hpc.1⟩
    · exact ih i hpc.2 hpc.1

theorem stampGapPairwise (ts : List Int) (h : ts.Pairwise (· ≤ ·)) :
    (stampListAux none ts).Pairwise (fun a b => a + 300 < b) := by
  cases ts with
  | nil => simp [stampListAux]
  | cons t rest =>
    have hpc := List.pairwise_cons.mp h
    simp only [stampListAux]
    exact List.pairwise_cons.mpr
      ⟨stampGapBound rest t hpc.2 hpc.1, stampGapPairwiseSome rest t hpc.2 hpc.1⟩

theorem clean_filter_bridge (S : Nat → List Int) :
    ∀ (l : List TimedOpp) (ty : Nat),
      (l.filter (fun o => decide (o.type = ty) && decide (o.time ∈ S o.type))).map
          (fun o => o.time)
        = ((l.filter (fun o => decide (o.type = ty))).map (fun o => o.time)).filter
            (fun tt => decide (tt ∈ S ty)) := by
  intro l
  induction l with
  | nil => intro ty; rfl
  | cons o rest ih =>
    intro ty
    by_cases hty : o.type = ty
    · subst hty
      by_cases hmem : o.time ∈ S o.type
      · simp [List.filter_cons, hmem, ih]
      · simp [List.filter_cons, hmem, ih]
    · simp [List.filter_cons, hty, ih]

/-- C5 (amended): for every opportunity list and fixed source type whose
per-type times are strictly increasing, after deduplication no two retained
opportunities of that type are within 5 minutes of each other, and the
retained ones are exactly the first of the type plus those whose time
exceeds that of the IMMEDIATELY PRECEDING OPPORTUNITY of the same type —
retained or not — by more than 5 minutes (the original claim's "immediately
preceding retained opportunity" is wrong: the source updates `last` on
every opportunity, dropped ones included). -/
theorem clean_opportunities_dedup_amended (opps : List TimedOpp) (ty : Nat)
    (hs : (typeTimes opps ty).Pairwise (· < ·)) :
    ((clean_opportunities opps).filter (fun o => o.type = ty)).map (fun o => o.time)
      = retainedSpec (typeTimes opps ty)
    ∧ (((clean_opportunities opps).filter (fun o => o.type = ty)).map
        (fun o => o.time)).Pairwise (fun a b => a + 300 < b) := by
  have hnd : (typeTimes opps ty).Nodup := hs.imp (fun hab => ne_of_lt hab)
  have hfil : (typeTimes opps ty).filter (fun tt => decide (tt ∈ stampFor opps ty))
      = stampListAux none (typeTimes opps ty) :=
    filter_mem_of_sublist_nodup (stampListAux_sublist _ none) hnd
  have hmain : ((clean_opportunities opps).filter (fun o => o.type = ty)).map
      (fun o => o.time) = stampListAux none (typeTimes opps ty) := by
    simp only [clean_opportunities, List.filter_filter]
    rw [clean_filter_bridge (stampFor opps) opps ty]
    exact hfil
  refine ⟨?_, ?_⟩
  · rw [hmain, stampListAux_eq_retainedSpec]
  · rw [hmain]
    exact stampGapPairwise _ (hs.imp (fun hab => le_of_lt hab))

/-- Three opportunities of type 5 at 0 s, 240 s and 480 s (4-minute gaps). -/
def exC5 : List TimedOpp := [⟨0, 5, exOpp⟩, ⟨240, 5, exOpp⟩, ⟨480, 5, exOpp⟩]

/-- Counterexample to C5 as stated: on `exC5` only the opportunity at time 0
is retained; the opportunity at time 480 is discarded even though its time
is MORE than 5 minutes (480 s > 300 s) after the immediately preceding
RETAINED opportunity of its type (time 0) — so the discarded opportunities
are not exactly those within 5 minutes of the preceding retained one (the
comparison is against the preceding opportunity, retained or not). -/
theorem clean_opportunities_counterexample :
    clean_opportunities exC5 = [⟨0, 5, exOpp⟩]
    ∧ (⟨480, 5, exOpp⟩ : TimedOpp) ∈ exC5
    ∧ (⟨480, 5, exOpp⟩ : TimedOpp) ∉ clean_opportunities exC5
    ∧ (480 : Int) - 0 > 300 := by decide

/-- Witness for the amended C5 on the concrete list `exC5`. -/
theorem clean_opportunities_dedup_amended_witness :
    ((clean_opportunities exC5).filter (fun o => o.type = 5)).map (fun o => o.time)
      = retainedSpec (typeTimes exC5 5)
    ∧ (((clean_opportunities exC5).filter (fun o => o.type = 5)).map
        (fun o => o.time)).Pairwise (fun a b => a + 300 < b) :=
  clean_opportunities_dedup_amended exC5 5 (by decide)
